import Mathlib

/-!
Verification of the plankton-dinov2 training core against its
natural-language specification.

The definitions below are a shallow embedding of
`src/dinov2/data/collate.py` (`collate_data_and_cast`, mask sampling,
mask indices, mask weights, upperbound), `src/dinov2/train/train.py`
(`do_train`, the NaN check on the reduced loss dictionary) and
`src/dinov2/train/ssl_meta_arch.py` (`SSLMetaArch.__init__`,
`get_teacher_output` centering dispatch, `forward_backward` loss
normalization, `update_teacher`).  Machine floats are modelled as exact
rationals, except where NaN/Inf propagation matters, where an explicit
IEEE-style value type is used.  Randomness (the mask-ratio draws, the
mask generator, `random.shuffle`) is modelled by explicit functional
parameters.
-/

/-- Python `int()` conversion of a rational: truncation toward zero. -/
def pyInt (q : ℚ) : ℤ := if 0 ≤ q then ⌊q⌋ else ⌈q⌉

/-- Number of `True` entries of a boolean tensor (flattened). -/
def countTrue (l : List Bool) : ℕ := l.count true

/-- Point `i` of `torch.linspace(rmin, rmax, k + 1)` (collate.py line 208):
the endpoints of the partition of `[rmin, rmax]` into `k` equal sub-intervals. -/
def subProb (rmin rmax : ℚ) (k i : ℕ) : ℚ := rmin + (i : ℚ) * ((rmax - rmin) / (k : ℚ))

/-- Source `n_samples_masked = int(B * mask_probability)` (collate.py line 207).
Here `B` is the number of collated global-crop rows, i.e. the per-sample
batch size times the number of global crops per sample. -/
def nSamplesMasked (B : ℕ) (p : ℚ) : ℕ := (pyInt ((B : ℚ) * p)).toNat

/-- Requested mask coverage `int(N * random.uniform(prob_min, prob_max))`
(collate.py line 221), where `u` is the drawn ratio. -/
def requestedCount (N : ℕ) (u : ℚ) : ℕ := (pyInt ((N : ℚ) * u)).toNat

/-- Source `masks_list` before shuffling (collate.py lines 210-237, fixed-shape
path): the first `n_samples_masked` rows are produced by the mask generator at
the drawn coverage, the remaining `B - n_samples_masked` rows are produced by
the mask generator at coverage 0.  `mg` is the mask generator (a flattened
boolean grid per coverage request) and `draws i` is the ratio drawn uniformly
from the i-th sub-interval. -/
def masksListPre (mg : ℕ → List Bool) (draws : ℕ → ℚ) (B N : ℕ) (p : ℚ) : List (List Bool) :=
  (List.range (nSamplesMasked B p)).map (fun i => mg (requestedCount N (draws i)))
    ++ (List.range (B - nSamplesMasked B p)).map (fun _ => mg 0)

/-- Source `collated_masks` (collate.py lines 239-247, fixed-shape path,
`use_ch_patch_embed = False`): the shuffled mask list, one flattened boolean
row per collated global-crop row.  `shuffle` models `random.shuffle`. -/
def collatedMasks (mg : ℕ → List Bool) (draws : ℕ → ℚ)
    (shuffle : List (List Bool) → List (List Bool)) (B N : ℕ) (p : ℚ) : List (List Bool) :=
  shuffle (masksListPre mg draws B N p)

/-- Source `tensor.nonzero()` on a flat boolean tensor: the ascending list of
positions holding `true`. -/
def nonzeroIndices (l : List Bool) : List ℕ :=
  (List.range l.length).filter (fun i => l.getD i false)

/-- Source `mask_indices_list = collated_masks.flatten().nonzero().flatten()`
(collate.py line 250). -/
def maskIndicesList (masks : List (List Bool)) : List ℕ := nonzeroIndices masks.flatten

/-- Source `n_masked_patches = mask_indices_list.shape[0]` (collate.py line 269). -/
def nMaskedPatches (masks : List (List Bool)) : ℕ := (maskIndicesList masks).length

/-- Per-row masked count clamped to at least one:
`collated_masks.sum(-1).clamp(min=1.0)` (collate.py line 253). -/
def clampedCount (row : List Bool) : ℕ := max (countTrue row) 1

/-- Reciprocal of the clamped per-row masked count (collate.py line 253). -/
def rowWeight (row : List Bool) : ℚ := 1 / (clampedCount row : ℚ)

/-- Contribution of one mask row to `masks_weight`: the reciprocal weight,
broadcast over the row and gathered at the `true` positions
(collate.py lines 252-256), i.e. one copy per `true` entry. -/
def rowWeights (row : List Bool) : List ℚ := List.replicate (countTrue row) (rowWeight row)

/-- Source `masks_weight` (collate.py lines 252-256): row-major concatenation of
the per-row weight contributions. -/
def masksWeight (masks : List (List Bool)) : List ℚ := (masks.map rowWeights).flatten

/-- Per-masked-row upperbound contribution `int(N * prob_max)` where
`prob_max = probs[i + 1]` is the upper end of the i-th sub-interval
(collate.py line 224). -/
def expectedMaxMaskedCount (N : ℕ) (rmin rmax : ℚ) (k i : ℕ) : ℤ :=
  pyInt ((N : ℚ) * subProb rmin rmax k (i + 1))

/-- Accumulated upperbound estimate over the masked rows
(collate.py lines 209-224). -/
def upperboundEstimate (B N : ℕ) (p rmin rmax : ℚ) : ℤ :=
  ((List.range (nSamplesMasked B p)).map
    (fun i => expectedMaxMaskedCount N rmin rmax (nSamplesMasked B p) i)).sum

/-- Returned `upperbound` (collate.py lines 257-258): the estimate, refreshed
to the realized masked-patch count when the latter is larger. -/
def upperboundOut (mg : ℕ → List Bool) (draws : ℕ → ℚ)
    (shuffle : List (List Bool) → List (List Bool)) (B N : ℕ) (p rmin rmax : ℚ) : ℤ :=
  let realized : ℤ := nMaskedPatches (collatedMasks mg draws shuffle B N p)
  let est := upperboundEstimate B N p rmin rmax
  if realized > est then realized else est

/-- Number of rows of a collated mask batch holding at least one `true`. -/
def nontrivialCount (masks : List (List Bool)) : ℕ :=
  masks.countP (fun r => decide (0 < countTrue r))

/-- Number of all-`false` rows of a collated mask batch. -/
def allFalseCount (masks : List (List Bool)) : ℕ :=
  masks.countP (fun r => decide (countTrue r = 0))

/-- Modelled from the spec: `MaskingGenerator` (dinov2/data/masking.py, not
under src/).  Per the spec it marks cells `true` until the running count
reaches the requested coverage or the maximum-patches ceiling, whichever is
smaller, and a request of coverage 0 returns an all-`false` mask.  Block
placement is irrelevant to every counting claim, so the model fills the first
`min c maxPatches` cells of the flattened grid. -/
def maskGeneratorModel (maxPatches gridSize c : ℕ) : List Bool :=
  List.replicate (min c maxPatches) true ++ List.replicate (gridSize - min c maxPatches) false

/-- Python float value as far as NaN/Inf propagation is concerned: NaN, a
signed infinity, or a finite value (modelled exactly as a rational). -/
inductive PyFloat where
  | nan : PyFloat
  | inf : Bool → PyFloat
  | fin : ℚ → PyFloat
deriving DecidableEq

/-- IEEE addition on `PyFloat`: NaN absorbs, opposite infinities give NaN,
an infinity absorbs finite values, finite values add exactly. -/
def PyFloat.add : PyFloat → PyFloat → PyFloat
  | PyFloat.nan, _ => PyFloat.nan
  | _, PyFloat.nan => PyFloat.nan
  | PyFloat.inf s, PyFloat.inf t => if s = t then PyFloat.inf s else PyFloat.nan
  | PyFloat.inf s, PyFloat.fin _ => PyFloat.inf s
  | PyFloat.fin _, PyFloat.inf t => PyFloat.inf t
  | PyFloat.fin a, PyFloat.fin b => PyFloat.fin (a + b)

/-- Source `math.isnan(x)`. -/
def PyFloat.isnan : PyFloat → Bool
  | PyFloat.nan => true
  | _ => false

/-- Finiteness predicate on `PyFloat` (`math.isfinite`). -/
def PyFloat.finite : PyFloat → Bool
  | PyFloat.fin _ => true
  | _ => false

/-- Python `sum(...)` over the values of the reduced loss dictionary
(train.py line 400): left fold of IEEE addition starting from 0. -/
def sumLosses (l : List PyFloat) : PyFloat := l.foldl PyFloat.add (PyFloat.fin 0)

/-- Exceptions the embedded training code can raise. -/
inductive PyError where
  | assertionError : PyError
  | notImplementedError : PyError
  | unboundLocalError : PyError
  | ibotMaskRatioAssert : PyError
  | ibotMaskProbabilityAssert : PyError
deriving DecidableEq

/-- Source train.py lines 400-402: after the cross-process reduction, if
`math.isnan(sum(loss_dict_reduced.values()))` then `raise AssertionError`;
otherwise the iteration continues. -/
def nanCheck (lossDictReduced : List PyFloat) : Except PyError Unit :=
  if (sumLosses lossDictReduced).isnan then Except.error PyError.assertionError
  else Except.ok ()

/-- Configuration fields of `SSLMetaArch.__init__` and the centering dispatch
(ssl_meta_arch.py).  `centering` is `cfg.train.centering`. -/
structure TrainCfg where
  gradScaler : Bool
  dinoLossWeight : ℚ
  koleoLossWeight : ℚ
  ibotLossWeight : ℚ
  ibotSeparateHead : Bool
  ibotMaskRatioMin : ℚ
  ibotMaskRatioMax : ℚ
  ibotMaskSampleProb : ℚ
  centering : String

/-- State built by `SSLMetaArch.__init__` that the claims need. -/
structure ArchState where
  doDino : Bool
  doKoleo : Bool
  doIbot : Bool
  ibotSeparateHead : Bool
  hasDinoHead : Bool
  hasIbotHead : Bool
  teacherRequiresGrad : Bool
deriving DecidableEq

/-- Source `SSLMetaArch.__init__` (ssl_meta_arch.py lines 34-160): computes the
loss toggles from the loss weights; the `dino_head` local is bound only under
`if self.do_dino:` (line 82) yet is called at line 100 whenever
`self.do_dino or self.do_ibot`, so an iBOT-only configuration (dino weight 0,
ibot weight positive) raises `UnboundLocalError` during construction; after
that call, `__init__` asserts (only when iBOT is enabled) a positive
mask-ratio tuple and a positive mask-sample probability (lines 113-118),
builds the heads, and turns gradients off for every teacher parameter.  It
performs no check of `cfg.train.centering`. -/
def initSSLMetaArch (cfg : TrainCfg) : Except PyError ArchState :=
  let doDino := 0 < cfg.dinoLossWeight
  let doKoleo := 0 < cfg.koleoLossWeight
  let doIbot := 0 < cfg.ibotLossWeight
  if (doDino ∨ doIbot) ∧ ¬ doDino then
    Except.error PyError.unboundLocalError
  else if doIbot ∧ ¬ 0 < max cfg.ibotMaskRatioMin cfg.ibotMaskRatioMax then
    Except.error PyError.ibotMaskRatioAssert
  else if doIbot ∧ ¬ 0 < cfg.ibotMaskSampleProb then
    Except.error PyError.ibotMaskProbabilityAssert
  else
    Except.ok
      { doDino := decide doDino
        doKoleo := decide doKoleo
        doIbot := decide doIbot
        ibotSeparateHead := cfg.ibotSeparateHead
        hasDinoHead := decide (doDino ∨ doIbot)
        hasIbotHead := decide doIbot && cfg.ibotSeparateHead
        teacherRequiresGrad := false }

/-- Source `get_teacher_output` centering dispatch (ssl_meta_arch.py lines
279-330): the branch on `cfg.train.centering` recognizes exactly the strings
shown and otherwise raises `NotImplementedError`.  This dispatch runs inside
the first training step, at the first teacher forward. -/
def centeringBranch (centering : String) : Except PyError Unit :=
  if centering = "centering" then Except.ok ()
  else if centering = "sinkhorn_knopp" then Except.ok ()
  else Except.error PyError.notImplementedError

/-- Autograd operations recorded by the tape while gradient mode is enabled. -/
inductive AutogradOp where
  | foreachMul : AutogradOp
  | foreachAdd : AutogradOp
deriving DecidableEq

/-- Tape recording of one tensor operation: under `torch.no_grad()` the
gradient mode is disabled and nothing is recorded. -/
def autogradRecord (gradModeEnabled : Bool) (op : AutogradOp) : List AutogradOp :=
  if gradModeEnabled then [op] else []

/-- Source `torch._foreach_mul_(teacher_param_list, m)` on the values. -/
def foreachMulVals (ps : List ℚ) (m : ℚ) : List ℚ := ps.map (fun t => t * m)

/-- Source `torch._foreach_add_(teacher_param_list, student_param_list,
alpha=1 - m)` on the values. -/
def foreachAddAlphaVals (ps qs : List ℚ) (alpha : ℚ) : List ℚ :=
  List.zipWith (fun t s => t + alpha * s) ps qs

/-- Source `SSLMetaArch.update_teacher` (ssl_meta_arch.py lines 559-570): under
`with torch.no_grad()` (gradient mode disabled), multiply every teacher
parameter by `m` in place, then add `alpha = 1 - m` times the matching student
parameter.  Returns the updated teacher values together with the autograd tape
recorded by the two operations. -/
def updateTeacher (m : ℚ) (studentParamList teacherParamList : List ℚ) :
    List ℚ × List AutogradOp :=
  let gradModeEnabled := false
  let tapeMul := autogradRecord gradModeEnabled AutogradOp.foreachMul
  let scaled := foreachMulVals teacherParamList m
  let tapeAdd := autogradRecord gradModeEnabled AutogradOp.foreachAdd
  let updated := foreachAddAlphaVals scaled studentParamList (1 - m)
  (updated, tapeMul ++ tapeAdd)

/-- Mean of a list of rationals (`tensor.mean()` over the batch dimension). -/
def meanQ (l : List ℚ) : ℚ := l.sum / (l.length : ℚ)

/-- Modelled from the spec: `DINOLoss.forward` (dinov2/loss, not under src/).
Per the spec the global-crop distillation term is, for each student output,
the cross-entropy against the paired teacher pseudo-target; for batched
tensors this is the batch mean of the rowwise cross-entropy
(-sum t * log softmax(s / temp), abstracted here as the parameter `ce`),
accumulated over the student-output list and the teacher-target list. -/
def dinoLossForward {α : Type} (ce : α → α → ℚ) (studentList teacherList : List (List α)) : ℚ :=
  (studentList.map (fun s => (teacherList.map (fun t => meanQ (List.zipWith ce s t))).sum)).sum

/-- Source ssl_meta_arch.py lines 228-232: the two chunks of teacher cls
tokens are concatenated in reverse, so crop A is matched against crop B. -/
def teacherSwapCat {α : Type} (t0 t1 : List α) : List α := t1 ++ t0

/-- Source `n_global_crops_loss_terms = (n_global_crops - 1) * n_global_crops`
(ssl_meta_arch.py line 211). -/
def nGlobalCropsLossTerms (ng : ℕ) : ℕ := (ng - 1) * ng

/-- Source `n_local_crops_loss_terms = max(n_local_crops * n_global_crops, 1)`
(ssl_meta_arch.py line 210). -/
def nLocalCropsLossTerms (nl ng : ℕ) : ℕ := max (nl * ng) 1

/-- Source `loss_scales = 2` (ssl_meta_arch.py line 485). -/
def lossScales : ℚ := 2

/-- Source `dino_global_crops_loss` (ssl_meta_arch.py lines 489-498): the DINO
loss of the concatenated two-crop student tokens against the reverse-swapped
teacher pseudo-targets, times `loss_scales`, divided by the sum of the
global and local loss-term counts.  `n_global_crops = 2` is hardcoded at
ssl_meta_arch.py line 172. -/
def dinoGlobalCropsLoss {α : Type} (ce : α → α → ℚ) (s0 s1 t0 t1 : List α) (nLocal : ℕ) : ℚ :=
  dinoLossForward ce [s0 ++ s1] [teacherSwapCat t0 t1] * lossScales
    / ((nGlobalCropsLossTerms 2 : ℚ) + (nLocalCropsLossTerms nLocal 2 : ℚ))

/-- Modelled from the spec: TokenPacker packing
(`fmha.BlockDiagonalMask.from_tensor_list`, an external xformers call used at
ssl_meta_arch.py lines 425-427).  Per the spec it concatenates the token
groups along one synthetic batch axis and records the block boundaries. -/
def packTokenGroups {α : Type} (groups : List (List α)) : List ℕ × List α :=
  (groups.map List.length, groups.flatten)

/-- Modelled from the spec: TokenPacker unpacking (`_attn_bias.split`, the
external xformers call used at ssl_meta_arch.py line 431).  Per the spec it
splits the packed batch back by the recorded block boundaries, in packing
order. -/
def splitByLengths {α : Type} : List ℕ → List α → List (List α)
  | [], _ => []
  | n :: ns, xs => xs.take n :: splitByLengths ns (xs.drop n)

/-- Concrete mask generator used by witnesses: the spec model on a 16-cell
grid with the standard ceiling of half the patches. -/
def mgWitness : ℕ → List Bool := maskGeneratorModel 8 16

/-- Concrete ratio draws used by witnesses: every draw is 1/4. -/
def drawsWitness : ℕ → ℚ := fun _ => (1 : ℚ) / 4

/-- Concrete configuration with an unrecognized centering mode, all loss
weights positive, and valid iBOT masking parameters. -/
def badCenteringCfg : TrainCfg :=
  { gradScaler := true
    dinoLossWeight := 1
    koleoLossWeight := 1
    ibotLossWeight := 1
    ibotSeparateHead := false
    ibotMaskRatioMin := 0
    ibotMaskRatioMax := 1
    ibotMaskSampleProb := 1
    centering := "bogus_mode" }

/-! Helper lemmas about the collated-mask pipeline. -/

theorem nonzeroIndices_cons (a : Bool) (l : List Bool) :
    nonzeroIndices (a :: l)
      = (if a then [0] else []) ++ (nonzeroIndices l).map (· + 1) := by
  unfold nonzeroIndices
  rw [List.length_cons, List.range_succ_eq_map, List.filter_cons, List.filter_map]
  have hcomp :
      ((fun i => (a :: l).getD i false) ∘ Nat.succ) = fun i => l.getD i false := by
    funext i
    simp [Function.comp, List.getD_cons_succ]
  rw [hcomp]
  by_cases ha : a
  · simp [ha, List.getD_cons_zero]
  · simp [ha, List.getD_cons_zero]

theorem length_nonzeroIndices (l : List Bool) :
    (nonzeroIndices l).length = countTrue l := by
  induction l with
  | nil => rfl
  | cons a t ih =>
    rw [nonzeroIndices_cons, List.length_append, List.length_map, ih]
    cases a <;> simp [countTrue, List.count_cons]
    all_goals omega

theorem mem_nonzeroIndices (l : List Bool) (i : ℕ) :
    i ∈ nonzeroIndices l ↔ l.getD i false = true := by
  unfold nonzeroIndices
  rw [List.mem_filter, List.mem_range]
  constructor
  · intro h
    exact h.2
  · intro h
    refine ⟨?_, h⟩
    by_contra hlen
    push_neg at hlen
    rw [List.getD_eq_default _ _ hlen] at h
    exact Bool.false_ne_true h

theorem pairwise_nonzeroIndices (l : List Bool) :
    List.Pairwise (· < ·) (nonzeroIndices l) :=
  (List.pairwise_lt_range _).filter _

theorem countTrue_flatten (ms : List (List Bool)) :
    countTrue ms.flatten = (ms.map countTrue).sum := by
  induction ms with
  | nil => rfl
  | cons h t ih =>
    rw [List.flatten_cons, countTrue, List.count_append, List.map_cons, List.sum_cons]
    rw [countTrue] at ih
    rw [ih]
    rfl

theorem masksWeight_length (ms : List (List Bool)) :
    (masksWeight ms).length = countTrue ms.flatten := by
  rw [masksWeight, List.length_flatten, countTrue_flatten, List.map_map]
  have hfun : (List.length ∘ rowWeights) = countTrue := by
    funext row
    simp [Function.comp, rowWeights, List.length_replicate]
  rw [hfun]

/-- C9: for every collated batch, the returned masked-index list consists
exactly of the flat positions at which the flattened collated mask tensor is
true, in ascending order, and the returned literal masked count
(`n_masked_patches`) equals the number of true entries of the collated mask
tensor. -/
theorem c9_mask_indices_and_count_exact (mg : ℕ → List Bool) (draws : ℕ → ℚ)
    (shuffle : List (List Bool) → List (List Bool)) (B N : ℕ) (p : ℚ) :
    (∀ i, i ∈ maskIndicesList (collatedMasks mg draws shuffle B N p)
        ↔ (collatedMasks mg draws shuffle B N p).flatten.getD i false = true)
    ∧ List.Pairwise (· < ·) (maskIndicesList (collatedMasks mg draws shuffle B N p))
    ∧ nMaskedPatches (collatedMasks mg draws shuffle B N p)
        = countTrue (collatedMasks mg draws shuffle B N p).flatten :=
  ⟨fun i => mem_nonzeroIndices _ i, pairwise_nonzeroIndices _, length_nonzeroIndices _⟩

/-- C10: for every collated batch, the masked-weight divisor of every row is
the masked count clamped to a minimum of 1 and hence never zero, rows with an
all-false mask contribute no weight entries, and the weight vector has exactly
one entry per true mask entry, so its length equals the masked count. -/
theorem c10_weights_never_divide_by_zero (mg : ℕ → List Bool) (draws : ℕ → ℚ)
    (shuffle : List (List Bool) → List (List Bool)) (B N : ℕ) (p : ℚ) :
    (masksWeight (collatedMasks mg draws shuffle B N p)).length
        = nMaskedPatches (collatedMasks mg draws shuffle B N p)
    ∧ (∀ row : List Bool, (clampedCount row : ℚ) ≠ 0)
    ∧ (∀ row : List Bool, countTrue row = 0 → rowWeights row = []) := by
  refine ⟨?_, ?_, ?_⟩
  · rw [masksWeight_length, nMaskedPatches, maskIndicesList, length_nonzeroIndices]
  · intro row
    have h1 : 1 ≤ clampedCount row := le_max_right _ _
    exact_mod_cast Nat.one_le_iff_ne_zero.mp h1
  · intro row h
    rw [rowWeights, h, List.replicate_zero]

/-- C5 (amended): the weight normalization is per collated crop row, not per
sample: for every collated batch and every mask row (one (sample, global-crop)
pair) with at least one masked patch, each masked position of that row is
weighted by the reciprocal of that row's masked count, so the weights of one
crop row's masked positions sum to exactly 1; a sample's masked-position
weights therefore sum to the number of its non-trivially masked crop rows,
which can exceed 1. -/
theorem c5_per_row_weight_normalization_amended (mg : ℕ → List Bool) (draws : ℕ → ℚ)
    (shuffle : List (List Bool) → List (List Bool)) (B N : ℕ) (p : ℚ)
    (row : List Bool) (_hrow : row ∈ collatedMasks mg draws shuffle B N p)
    (hpos : 0 < countTrue row) :
    rowWeight row = 1 / (countTrue row : ℚ) ∧ (rowWeights row).sum = 1 := by
  have hc : clampedCount row = countTrue row := by
    unfold clampedCount
    omega
  have hne : (countTrue row : ℚ) ≠ 0 := Nat.cast_ne_zero.mpr (Nat.pos_iff_ne_zero.mp hpos)
  constructor
  · rw [rowWeight, hc]
  · rw [rowWeights, List.sum_replicate, rowWeight, hc, nsmul_eq_mul, mul_one_div,
      div_self hne]

/-- C4: for every collated batch, the returned upperbound equals the larger of
the per-masked-row estimate sum (int-truncated N times each sub-interval upper
ratio) and the realized masked-patch count, so the realized count never
exceeds the returned upperbound. -/
theorem c4_upperbound_is_max (mg : ℕ → List Bool) (draws : ℕ → ℚ)
    (shuffle : List (List Bool) → List (List Bool)) (B N : ℕ) (p rmin rmax : ℚ) :
    upperboundOut mg draws shuffle B N p rmin rmax
        = max (upperboundEstimate B N p rmin rmax)
            ((nMaskedPatches (collatedMasks mg draws shuffle B N p) : ℤ))
    ∧ ((nMaskedPatches (collatedMasks mg draws shuffle B N p) : ℤ))
        ≤ upperboundOut mg draws shuffle B N p rmin rmax := by
  have hmax : upperboundOut mg draws shuffle B N p rmin rmax
      = max (upperboundEstimate B N p rmin rmax)
          ((nMaskedPatches (collatedMasks mg draws shuffle B N p) : ℤ)) := by
    simp only [upperboundOut]
    split_ifs with h
    · exact (max_eq_right h.le).symm
    · push_neg at h
      exact (max_eq_left h).symm
  exact ⟨hmax, hmax ▸ le_max_right _ _⟩

theorem one_le_requestedCount {N : ℕ} {u : ℚ} (h : 1 ≤ (N : ℚ) * u) :
    1 ≤ requestedCount N u := by
  unfold requestedCount pyInt
  rw [if_pos (le_trans zero_le_one h)]
  have hfl : (1 : ℤ) ≤ ⌊(N : ℚ) * u⌋ := Int.le_floor.mpr (by exact_mod_cast h)
  omega

/-- C1 (amended): the mask-sampling count is taken over the collated
global-crop rows, of which there are batch_size * n_global_crops; exactly
k = int((batch_size * n_global_crops) * p) of these rows receive a mask from
a positive coverage request (hence non-trivial whenever each drawn ratio
requests at least one patch), and the remaining rows are all-false. -/
theorem c1_mask_sampling_count_amended
    (mg : ℕ → List Bool) (draws : ℕ → ℚ)
    (shuffle : List (List Bool) → List (List Bool))
    (batchSize nGlobalCrops N : ℕ) (p : ℚ)
    (hshuffle : ∀ l, (shuffle l).Perm l)
    (hmg0 : countTrue (mg 0) = 0)
    (hmg : ∀ c, 1 ≤ c → 1 ≤ countTrue (mg c))
    (hdraws : ∀ i, i < nSamplesMasked (batchSize * nGlobalCrops) p →
      1 ≤ (N : ℚ) * draws i) :
    nontrivialCount (collatedMasks mg draws shuffle (batchSize * nGlobalCrops) N p)
        = nSamplesMasked (batchSize * nGlobalCrops) p
    ∧ allFalseCount (collatedMasks mg draws shuffle (batchSize * nGlobalCrops) N p)
        = batchSize * nGlobalCrops - nSamplesMasked (batchSize * nGlobalCrops) p := by
  have hA : ∀ a ∈ (List.range (nSamplesMasked (batchSize * nGlobalCrops) p)).map
      (fun i => mg (requestedCount N (draws i))), 0 < countTrue a := by
    intro a ha
    rcases List.mem_map.mp ha with ⟨i, hi, rfl⟩
    have h1 := one_le_requestedCount (hdraws i (List.mem_range.mp hi))
    have h2 := hmg _ h1
    omega
  have hB : ∀ a ∈ (List.range (batchSize * nGlobalCrops
      - nSamplesMasked (batchSize * nGlobalCrops) p)).map
      (fun _ : ℕ => mg 0), countTrue a = 0 := by
    intro a ha
    rcases List.mem_map.mp ha with ⟨i, _, rfl⟩
    exact hmg0
  have hperm := hshuffle (masksListPre mg draws (batchSize * nGlobalCrops) N p)
  constructor
  · rw [nontrivialCount, collatedMasks, hperm.countP_eq, masksListPre,
      List.countP_append]
    have hfirst : List.countP (fun r => decide (0 < countTrue r))
        ((List.range (nSamplesMasked (batchSize * nGlobalCrops) p)).map
          (fun i => mg (requestedCount N (draws i))))
        = nSamplesMasked (batchSize * nGlobalCrops) p := by
      rw [List.countP_eq_length.mpr (fun a ha => by
        simpa using hA a ha)]
      rw [List.length_map, List.length_range]
    have hsecond : List.countP (fun r => decide (0 < countTrue r))
        ((List.range (batchSize * nGlobalCrops
          - nSamplesMasked (batchSize * nGlobalCrops) p)).map (fun _ : ℕ => mg 0))
        = 0 := by
      rw [List.countP_eq_zero.mpr (fun a ha => by
        have := hB a ha
        simp [this])]
    rw [hfirst, hsecond, Nat.add_zero]
  · rw [allFalseCount, collatedMasks, hperm.countP_eq, masksListPre,
      List.countP_append]
    have hfirst : List.countP (fun r => decide (countTrue r = 0))
        ((List.range (nSamplesMasked (batchSize * nGlobalCrops) p)).map
          (fun i => mg (requestedCount N (draws i))))
        = 0 := by
      rw [List.countP_eq_zero.mpr (fun a ha => by
        have := hA a ha
        simp
        omega)]
    have hsecond : List.countP (fun r => decide (countTrue r = 0))
        ((List.range (batchSize * nGlobalCrops
          - nSamplesMasked (batchSize * nGlobalCrops) p)).map (fun _ : ℕ => mg 0))
        = batchSize * nGlobalCrops - nSamplesMasked (batchSize * nGlobalCrops) p := by
      rw [List.countP_eq_length.mpr (fun a ha => by
        simpa using hB a ha)]
      rw [List.length_map, List.length_range]
    rw [hfirst, hsecond, Nat.zero_add]

/-- C1 witness: the amended theorem applied at batch_size = 4, 2 global crops
(8 collated rows), p = 1/2, N = 16 tokens, draws of 1/4, identity shuffle and
the spec mask-generator model. -/
theorem c1_mask_sampling_count_amended_witness :
    countTrue (mgWitness 0) = 0
    ∧ nontrivialCount (collatedMasks mgWitness drawsWitness id (4 * 2) 16 (1 / 2))
        = nSamplesMasked (4 * 2) (1 / 2)
    ∧ allFalseCount (collatedMasks mgWitness drawsWitness id (4 * 2) 16 (1 / 2))
        = 4 * 2 - nSamplesMasked (4 * 2) (1 / 2) := by
  have h := c1_mask_sampling_count_amended mgWitness drawsWitness id 4 2 16 (1 / 2)
    (fun l => List.Perm.refl l) (by decide)
    (fun c hc => by
      simp [mgWitness, maskGeneratorModel, countTrue, List.count_append,
        List.count_replicate]
      omega)
    (fun i _ => by norm_num [drawsWitness])
  exact ⟨by decide, h.1, h.2⟩

/-- C1 counterexample: with a batch of 4 samples, 2 global crops each and
p = 1/2, the code hands a positive coverage request to 4 of the 8 collated
crop rows, not to floor(4 * 1/2) = 2 samples as the claim states. -/
theorem c1_counterexample :
    nontrivialCount (collatedMasks mgWitness drawsWitness id (4 * 2) 16 (1 / 2)) = 4
    ∧ (pyInt ((4 : ℚ) * (1 / 2))).toNat = 2
    ∧ (4 : ℕ) ≠ 2 := by
  refine ⟨?_, ?_, by decide⟩
  · have hk : nSamplesMasked (4 * 2) (1 / 2 : ℚ) = 4 := by
      unfold nSamplesMasked pyInt
      norm_num
      decide
    have hre : (fun i : ℕ => mgWitness (requestedCount 16 (drawsWitness i)))
        = fun _ : ℕ => mgWitness 4 := by
      funext i
      have h4 : requestedCount 16 (drawsWitness i) = 4 := by
        unfold drawsWitness requestedCount pyInt
        norm_num
        decide
      rw [h4]
    simp only [collatedMasks, masksListPre, id_eq]
    rw [hk, hre]
    decide
  · unfold pyInt
    norm_num
    decide

/-- C2 (amended): the training iteration aborts with AssertionError exactly
when the sum of the reduced loss values is NaN; a non-NaN non-finite (infinite)
total does not trigger the abort. -/
theorem c2_nan_abort_amended (lossDictReduced : List PyFloat) :
    nanCheck lossDictReduced = Except.error PyError.assertionError
      ↔ (sumLosses lossDictReduced).isnan = true := by
  unfold nanCheck
  by_cases h : (sumLosses lossDictReduced).isnan = true
  · simp [h]
  · simp [h]

/-- C2 counterexample: a positive-infinity total loss is non-finite, yet the
NaN check passes and the iteration continues, contradicting the claim that
every non-finite total aborts the process. -/
theorem c2_counterexample :
    (sumLosses [PyFloat.inf true]).finite = false
    ∧ (sumLosses [PyFloat.inf true]).isnan = false
    ∧ nanCheck [PyFloat.inf true] = Except.ok () :=
  ⟨rfl, rfl, rfl⟩

/-- C3 (amended): construction of the training architecture never inspects the
centering mode, so for every configuration whose centering mode is neither
recognized mode and which passes the construction-time checks unrelated to
centering (DINO enabled whenever iBOT is, so the `dino_head` local is bound,
and the iBOT masking assertions), construction succeeds; the fatal
NotImplementedError for the unrecognized centering mode is raised by the
centering dispatch inside the first teacher forward, i.e. at first use rather
than at construction time. -/
theorem c3_centering_error_at_first_use_amended (cfg : TrainCfg)
    (hc1 : cfg.centering ≠ "centering")
    (hc2 : cfg.centering ≠ "sinkhorn_knopp")
    (hdino : 0 < cfg.ibotLossWeight → 0 < cfg.dinoLossWeight)
    (hratio : 0 < cfg.ibotLossWeight → 0 < max cfg.ibotMaskRatioMin cfg.ibotMaskRatioMax)
    (hprob : 0 < cfg.ibotLossWeight → 0 < cfg.ibotMaskSampleProb) :
    (∃ st : ArchState, initSSLMetaArch cfg = Except.ok st
        ∧ st.teacherRequiresGrad = false)
    ∧ centeringBranch cfg.centering = Except.error PyError.notImplementedError := by
  constructor
  · refine ⟨{ doDino := decide (0 < cfg.dinoLossWeight)
              doKoleo := decide (0 < cfg.koleoLossWeight)
              doIbot := decide (0 < cfg.ibotLossWeight)
              ibotSeparateHead := cfg.ibotSeparateHead
              hasDinoHead := decide (0 < cfg.dinoLossWeight ∨ 0 < cfg.ibotLossWeight)
              hasIbotHead := decide (0 < cfg.ibotLossWeight) && cfg.ibotSeparateHead
              teacherRequiresGrad := false }, ?_, rfl⟩
    simp only [initSSLMetaArch]
    rw [if_neg, if_neg, if_neg]
    · intro h
      exact h.2 (hprob h.1)
    · intro h
      exact h.2 (hratio h.1)
    · intro h
      rcases h.1 with hd | hi
      · exact h.2 hd
      · exact h.2 (hdino hi)
  · unfold centeringBranch
    rw [if_neg hc1, if_neg hc2]

/-- C3 witness: the amended theorem applied to the concrete configuration
with centering mode "bogus_mode". -/
theorem c3_centering_error_at_first_use_amended_witness :
    badCenteringCfg.centering ≠ "centering"
    ∧ ((∃ st : ArchState, initSSLMetaArch badCenteringCfg = Except.ok st
          ∧ st.teacherRequiresGrad = false)
        ∧ centeringBranch badCenteringCfg.centering
            = Except.error PyError.notImplementedError) :=
  ⟨by decide,
   c3_centering_error_at_first_use_amended badCenteringCfg (by decide) (by decide)
     (fun _ => by norm_num [badCenteringCfg]) (fun _ => by norm_num [badCenteringCfg])
     (fun _ => by norm_num [badCenteringCfg])⟩

/-- C3 counterexample: with the unrecognized centering mode "bogus_mode" (and
all loss features enabled), `SSLMetaArch.__init__` succeeds, so no fatal
configuration error is raised at construction time; the NotImplementedError
only comes from the centering dispatch executed during the first training
step. -/
theorem c3_counterexample :
    (initSSLMetaArch badCenteringCfg).isOk = true
    ∧ badCenteringCfg.centering ≠ "centering"
    ∧ badCenteringCfg.centering ≠ "sinkhorn_knopp"
    ∧ centeringBranch badCenteringCfg.centering
        = Except.error PyError.notImplementedError := by
  exact ⟨rfl, by decide, by decide, rfl⟩

/-- C6: for every momentum m and matching student/teacher parameter lists, the
teacher EMA update yields m * teacher + (1 - m) * student elementwise, and the
autograd tape records nothing (the update runs with gradient mode disabled). -/
theorem c6_teacher_ema_update (m : ℚ) (studentParamList teacherParamList : List ℚ) :
    (updateTeacher m studentParamList teacherParamList).1
        = List.zipWith (fun t s => m * t + (1 - m) * s) teacherParamList studentParamList
    ∧ (updateTeacher m studentParamList teacherParamList).2 = [] := by
  constructor
  · simp only [updateTeacher, foreachMulVals, foreachAddAlphaVals]
    rw [List.zipWith_map_left]
    congr 1
    funext t s
    ring
  · rfl

/-- C7: with the hardcoded two global crops, the global-crop distillation loss
returned by the code equals the sum of the two per-crop-pair batch-mean
cross-entropies (crop 0 student against crop 1 pseudo-target and conversely,
realized by the reversed teacher concatenation) divided by
(n_global * (n_global - 1) + max(n_local * n_global, 1)), with no residual
scale factor: the explicit factor 2 exactly cancels the doubled batch length
of the single concatenated DINO-loss call. -/
theorem c7_global_crop_loss_normalization {α : Type} (ce : α → α → ℚ)
    (s0 s1 t0 t1 : List α) (nLocal B : ℕ)
    (hB : 0 < B) (hs0 : s0.length = B) (hs1 : s1.length = B)
    (ht0 : t0.length = B) (ht1 : t1.length = B) :
    dinoGlobalCropsLoss ce s0 s1 t0 t1 nLocal
      = (meanQ (List.zipWith ce s0 t1) + meanQ (List.zipWith ce s1 t0))
        / ((nGlobalCropsLossTerms 2 : ℚ) + (nLocalCropsLossTerms nLocal 2 : ℚ)) := by
  have hBne : (B : ℚ) ≠ 0 := Nat.cast_ne_zero.mpr hB.ne'
  have hlenA : (List.zipWith ce s0 t1).length = B := by
    rw [List.length_zipWith, hs0, ht1]
    exact min_self B
  have hlenB : (List.zipWith ce s1 t0).length = B := by
    rw [List.length_zipWith, hs1, ht0]
    exact min_self B
  unfold dinoGlobalCropsLoss dinoLossForward teacherSwapCat lossScales
  simp only [List.map_cons, List.map_nil, List.sum_cons, List.sum_nil, add_zero]
  rw [List.zipWith_append _ _ _ _ _ (by rw [hs0, ht1])]
  unfold meanQ
  rw [List.sum_append, List.length_append, hlenA, hlenB]
  rw [div_add_div_same]
  congr 1
  push_cast
  field_simp
  ring

/-- C8: packing any list of token groups into one block-diagonal batch and
immediately splitting by the recorded block boundaries returns exactly the
input groups, in order; the group lengths are arbitrary, so the round trip
also covers zero-length groups. -/
theorem c8_token_packer_roundtrip {α : Type} (groups : List (List α)) :
    splitByLengths (packTokenGroups groups).1 (packTokenGroups groups).2 = groups := by
  induction groups with
  | nil => rfl
  | cons g gs ih =>
    simp only [packTokenGroups, List.map_cons, List.flatten_cons] at *
    simp only [splitByLengths]
    rw [List.take_left, List.drop_left, ih]

/-- C5 witness: the amended per-row weight-normalization theorem applied to a
singleton batch whose one mask row has two true entries. -/
theorem c5_per_row_weight_normalization_amended_witness :
    0 < countTrue [true, true]
    ∧ (rowWeight [true, true] = 1 / (countTrue [true, true] : ℚ)
        ∧ (rowWeights [true, true]).sum = 1) :=
  ⟨by decide,
   c5_per_row_weight_normalization_amended (fun _ => [true, true]) drawsWitness id 1 0 0
     [true, true] (by simp [collatedMasks, masksListPre, nSamplesMasked, pyInt])
     (by decide)⟩

/-- C5 counterexample: one sample with its two global crops, p = 1, N = 16,
draws of 1/4 and identity shuffle.  Both of the sample's crop rows receive a
4-patch mask, so the sample has 8 masked patches in total; yet every masked
position is weighted 1/4 (the reciprocal of its crop row count, not of the
sample total 8), and the sample's masked-position weights sum to 2, not 1. -/
theorem c5_counterexample :
    (masksWeight (collatedMasks mgWitness drawsWitness id (1 * 2) 16 1)).sum = 2
    ∧ (masksWeight (collatedMasks mgWitness drawsWitness id (1 * 2) 16 1)).getD 0 0
        = 1 / 4
    ∧ countTrue (collatedMasks mgWitness drawsWitness id (1 * 2) 16 1).flatten = 8
    ∧ ((2 : ℚ) ≠ 1 ∧ ((1 : ℚ) / 4) ≠ 1 / 8) := by
  have hk : nSamplesMasked (1 * 2) (1 : ℚ) = 2 := by
    unfold nSamplesMasked pyInt
    norm_num
    decide
  have hre : (fun i : ℕ => mgWitness (requestedCount 16 (drawsWitness i)))
      = fun _ : ℕ => mgWitness 4 := by
    funext i
    have h4 : requestedCount 16 (drawsWitness i) = 4 := by
      unfold drawsWitness requestedCount pyInt
      norm_num
      decide
    rw [h4]
  have hcm : collatedMasks mgWitness drawsWitness id (1 * 2) 16 1
      = [mgWitness 4, mgWitness 4] := by
    simp only [collatedMasks, masksListPre, id_eq]
    rw [hk, hre]
    rfl
  have hct : countTrue (mgWitness 4) = 4 := by decide
  have hcl : clampedCount (mgWitness 4) = 4 := by decide
  have hrw : rowWeights (mgWitness 4) = List.replicate 4 ((1 : ℚ) / 4) := by
    rw [rowWeights, hct, rowWeight, hcl]
    norm_num
  have hmw : masksWeight [mgWitness 4, mgWitness 4]
      = List.replicate 4 ((1 : ℚ) / 4) ++ List.replicate 4 ((1 : ℚ) / 4) := by
    simp only [masksWeight, List.map_cons, List.map_nil, List.flatten_cons,
      List.flatten_nil, List.append_nil, hrw]
  refine ⟨?_, ?_, ?_, by norm_num⟩
  · rw [hcm, hmw, List.sum_append, List.sum_replicate, nsmul_eq_mul]
    norm_num
  · rw [hcm, hmw]
    rfl
  · rw [hcm]
    decide

/-- C7 witness: the loss-normalization theorem applied to singleton batches
with the product as rowwise cross-entropy and zero local crops. -/
theorem c7_global_crop_loss_normalization_witness :
    0 < 1
    ∧ dinoGlobalCropsLoss (fun a b : ℚ => a * b) [1] [1] [1] [1] 0
        = (meanQ (List.zipWith (fun a b : ℚ => a * b) [1] [1])
            + meanQ (List.zipWith (fun a b : ℚ => a * b) [1] [1]))
          / ((nGlobalCropsLossTerms 2 : ℚ) + (nLocalCropsLossTerms 0 2 : ℚ)) :=
  ⟨by decide,
   c7_global_crop_loss_normalization (fun a b : ℚ => a * b) [1] [1] [1] [1] 0 1
     (by decide) rfl rfl rfl rfl⟩
